import Mathlib

/-!
Shallow embedding of the OPC UA dashboard's persistence and route logic
(`server/storage.ts`, `server/routes.ts`) and of the client-side variable
grouping (`EnhancedVariablesTable`), with theorems settling the specified
behaviour of normalization, storage and the HTTP handlers.

JavaScript semantics that matter here are made explicit:
truthiness of strings (`""` is falsy), of numbers (`0` is falsy) and of
nullable values (`null`/`undefined` are falsy; any object, even `{}`, is
truthy), `String.prototype.padStart`, and `String.prototype.replace`
replacing only the first occurrence of a plain-string pattern.
-/

/-- JS `a || d` for a nullable string `a`: falsy (`null`, `undefined`, `""`)
falls back to `d`. -/
def jsOrString (o : Option String) (d : String) : String :=
  match o with
  | some s => if s = "" then d else s
  | none => d

/-- JS `a || d` for a nullable integer `a`: falsy (`null`, `undefined`, `0`)
falls back to `d`. -/
def jsOrInt (o : Option Int) (d : Int) : Int :=
  match o with
  | some n => if n = 0 then d else n
  | none => d

/-- JS `a || undefined` for a nullable string: keeps truthy strings, turns
`""`, `null`, `undefined` into `undefined`. -/
def jsTruthyString (o : Option String) : Option String :=
  match o with
  | some s => if s = "" then none else some s
  | none => none

/-- JS `a || undefined` for a nullable integer: keeps non-zero values. -/
def jsTruthyInt (o : Option Int) : Option Int :=
  match o with
  | some n => if n = 0 then none else some n
  | none => none

/-- JS falsiness of a nullable integer (`!a`): true for `null`, `undefined`, `0`. -/
def jsFalsyInt (o : Option Int) : Bool :=
  match o with
  | some n => n = 0
  | none => true

/-- JS `s.padStart(2, '0')`. -/
def padStart2 (s : String) : String :=
  if s.length ≥ 2 then s else String.mk (List.replicate (2 - s.length) '0') ++ s

/-- Replace the first occurrence of `pat` in the character list, leaving the
list unchanged when `pat` does not occur. -/
def replaceFirstAux (pat rep : List Char) : List Char → List Char
  | [] => []
  | c :: cs =>
    if pat.isPrefixOf (c :: cs) then rep ++ (c :: cs).drop pat.length
    else c :: replaceFirstAux pat rep cs

/-- JS `s.replace(pat, rep)` with a plain-string pattern: replaces only the
first occurrence of `pat` (the whole string is returned unchanged when `pat`
does not occur). -/
def replaceFirst (s pat rep : String) : String :=
  String.mk (replaceFirstAux pat.data rep.data s.data)

/-- JS `s.endsWith(suffix)`. -/
def jsEndsWith (s suffix : String) : Bool :=
  suffix.data.isSuffixOf s.data

/-! ## Persisted rows and database state (`server/storage.ts`, tables `plcs` and `variables`) -/

/-- One row of the `plcs` table (columns of the `CREATE TABLE` in `initDb`). -/
structure PlcRow where
  id : String
  plc_name : String
  plc_no : Option Int
  plc_ip : String
  opcua_url : String
  plc_status : String
  opcua_status : String
  last_checked : Int
  created_at : Int
deriving Repr, DecidableEq

/-- One row of the `variables` table. -/
structure VarRow where
  id : String
  plc_no : Int
  node_name : String
  description : Option String
  reg_address : String
  data_type : String
  user_description : Option String
deriving Repr, DecidableEq

/-- The SQLite database state, plus a counter supplying the fresh identifiers
that `randomUUID()` produces in the code. -/
structure DB where
  plcs : List PlcRow
  «variables» : List VarRow
  nextId : Nat
deriving Repr, DecidableEq

/-- Fresh identifier for the n-th `randomUUID()` call. -/
def uuid (n : Nat) : String := "uuid-" ++ toString n

/-! ## Input shapes (`PLCConfig` and the raw upload document) -/

/-- One entry of `config.address_mappings` as consumed by `createPLC`. -/
structure AddrMappingIn where
  node_name : String
  node_id : String
  description : Option String
  data_type : Option String
deriving Repr, DecidableEq

/-- A `PLCConfig` as consumed by `createPLC`. -/
structure PLCConfig where
  plc_name : String
  plc_no : Option Int
  plc_ip : String
  opcua_url : String
  address_mappings : List AddrMappingIn
deriving Repr, DecidableEq

/-- One entry of a raw mapping's `metadata.bit_mappings` object: the value
together with its object key, in the object's enumeration order. -/
structure BitEntry where
  address : String
  description : Option String
  bit_position : Int
deriving Repr, DecidableEq

/-- One entry of a raw PLC block's `address_mappings` list.  `bit_mappings`
is `none` when `mapping.metadata?.bit_mappings` is null or undefined, and
`some l` (possibly with `l = []`, an empty but truthy object) when present. -/
structure RawMapping where
  opcua_reg_add : String
  plc_reg_add : String
  description : Option String
  data_type : Option String
  bit_mappings : Option (List (String × BitEntry))
deriving Repr, DecidableEq

/-- A raw PLC block of the uploaded document. -/
structure RawPLC where
  plc_name : String
  plc_no : Option Int
  plc_ip : String
  opcua_url : String
  address_mappings : List RawMapping
deriving Repr, DecidableEq

/-! ## SqlStorage operations -/

/-- Variable-row data produced for one raw mapping by the loop body of
`createPLCFromRaw` (storage.ts lines 278-309), before identifiers are
assigned: a truthy `bit_mappings` yields one boolean row per entry and no
row for the mapping itself; otherwise the mapping yields a single row with
its own fields, the description defaulting to `""` and the data type to
`"string"` on falsy input. -/
def rawMappingRows (plcNo : Int) (m : RawMapping) : List VarRow :=
  match m.bit_mappings with
  | some bits =>
    bits.map fun kb =>
      { id := ""
        plc_no := plcNo
        node_name := m.opcua_reg_add ++ "_" ++ padStart2 kb.1
        description := kb.2.description
        reg_address := kb.2.address
        data_type := "bool"
        user_description := none }
  | none =>
    [{ id := ""
       plc_no := plcNo
       node_name := m.opcua_reg_add
       description := some (jsOrString m.description "")
       reg_address := m.plc_reg_add
       data_type := jsOrString m.data_type "string"
       user_description := none }]

/-- Assign the fresh identifiers `uuid start`, `uuid (start+1)`, ... to a
list of variable rows, in insertion order. -/
def assignIds (start : Nat) : List VarRow → List VarRow
  | [] => []
  | r :: rs => { r with id := uuid start } :: assignIds (start + 1) rs

/-- `SqlStorage.createPLCFromRaw` (storage.ts lines 244-322): rejects a
duplicate `plc_ip` before writing anything; otherwise inserts one PLC row
and then, mapping by mapping, the variable rows of `rawMappingRows`, keyed
by `plc_no || 1`. -/
def createPLCFromRaw (db : DB) (now : Int) (raw : RawPLC) :
    Except String (DB × PlcRow) :=
  if db.plcs.any (fun p => p.plc_ip = raw.plc_ip) then
    .error ("PLC with IP " ++ raw.plc_ip ++ " is already registered. To change it, delete the existing PLC and reupload the file.")
  else
    let plcRow : PlcRow :=
      { id := uuid db.nextId
        plc_name := raw.plc_name
        plc_no := raw.plc_no
        plc_ip := raw.plc_ip
        opcua_url := raw.opcua_url
        plc_status := "disconnected"
        opcua_status := "disconnected"
        last_checked := now
        created_at := now }
    let varRows :=
      assignIds (db.nextId + 1)
        (raw.address_mappings.flatMap (rawMappingRows (jsOrInt raw.plc_no 1)))
    .ok ({ plcs := db.plcs ++ [plcRow]
           «variables» := db.«variables» ++ varRows
           nextId := db.nextId + 1 + varRows.length }, plcRow)

/-- `SqlStorage.createPLC` (storage.ts lines 190-242): same duplicate-IP
check, then one PLC row and one variable row per `address_mappings` entry. -/
def sqlCreatePLC (db : DB) (now : Int) (config : PLCConfig) :
    Except String (DB × PlcRow) :=
  if db.plcs.any (fun p => p.plc_ip = config.plc_ip) then
    .error ("PLC with IP " ++ config.plc_ip ++ " is already registered. To change it, delete the existing PLC and reupload the file.")
  else
    let plcRow : PlcRow :=
      { id := uuid db.nextId
        plc_name := config.plc_name
        plc_no := config.plc_no
        plc_ip := config.plc_ip
        opcua_url := config.opcua_url
        plc_status := "disconnected"
        opcua_status := "disconnected"
        last_checked := now
        created_at := now }
    let varRows :=
      assignIds (db.nextId + 1)
        (config.address_mappings.map fun m =>
          { id := ""
            plc_no := jsOrInt config.plc_no 1
            node_name := m.node_name
            description := some (jsOrString m.description "")
            reg_address := m.node_id
            data_type := jsOrString m.data_type "string"
            user_description := none })
    .ok ({ plcs := db.plcs ++ [plcRow]
           «variables» := db.«variables» ++ varRows
           nextId := db.nextId + 1 + varRows.length }, plcRow)

/-- The database state a caller observes after a create call: unchanged when
the call threw. -/
def dbAfter (db : DB) : Except String (DB × PlcRow) → DB
  | .ok (db', _) => db'
  | .error _ => db

/-- A partial update object (`Partial<PLC>`) as received by `updatePLC`.
The route handlers additionally pass the legacy fields `status` and
`is_connected`, which are not columns of the `plcs` table; they are kept
here so the model can show `SqlStorage.updatePLC` ignoring them. -/
structure PlcUpdates where
  plc_name : Option String := none
  plc_no : Option Int := none
  plc_ip : Option String := none
  opcua_url : Option String := none
  plc_status : Option String := none
  opcua_status : Option String := none
  last_checked : Option Int := none
  status : Option String := none
  is_connected : Option Bool := none
deriving Repr, DecidableEq

/-- The column assignments `SqlStorage.updatePLC` builds (storage.ts lines
328-335): exactly the seven handled fields, each applied only when present
in the update object; `status` and `is_connected` have no case there. -/
def applyUpdates (p : PlcRow) (u : PlcUpdates) : PlcRow :=
  { p with
    plc_name := u.plc_name.getD p.plc_name
    plc_no := match u.plc_no with | some n => some n | none => p.plc_no
    plc_ip := u.plc_ip.getD p.plc_ip
    opcua_url := u.opcua_url.getD p.opcua_url
    plc_status := u.plc_status.getD p.plc_status
    opcua_status := u.opcua_status.getD p.opcua_status
    last_checked := u.last_checked.getD p.last_checked }

/-- `SqlStorage.updatePLC` (storage.ts lines 324-342): not-found yields no
change; otherwise the row with the given id is updated in place and the
fresh row is returned. -/
def sqlUpdatePLC (db : DB) (id : String) (u : PlcUpdates) :
    DB × Option PlcRow :=
  match db.plcs.find? (fun p => p.id = id) with
  | none => (db, none)
  | some _ =>
    let db' : DB :=
      { db with plcs := db.plcs.map (fun p => if p.id = id then applyUpdates p u else p) }
    (db', db'.plcs.find? (fun p => p.id = id))

/-- `SqlStorage.deletePLC` (storage.ts lines 344-359): looks the PLC up by
id, deletes the variable rows sharing its (non-null) `plc_no`, then the PLC
row itself, and reports whether a PLC row was removed. -/
def sqlDeletePLC (db : DB) (id : String) : DB × Bool :=
  match db.plcs.find? (fun p => p.id = id) with
  | none => (db, false)
  | some row =>
    let db1 : DB :=
      match row.plc_no with
      | some n => { db with «variables» := db.«variables».filter (fun v => v.plc_no ≠ n) }
      | none => db
    let changes := db1.plcs.countP (fun p => p.id = id)
    ({ db1 with plcs := db1.plcs.filter (fun p => p.id ≠ id) }, changes > 0)

/-- One entry of a returned PLC's `address_mappings` (the projection built
in `getAllPLCs` / `getPLCById`). -/
structure AddrMappingOut where
  node_name : String
  node_id : String
  description : Option String
  data_type : String
deriving Repr, DecidableEq

/-- A PLC object as returned by `SqlStorage.getAllPLCs`: the row with
`plc_no` coerced by `plc_no || undefined` plus the joined mappings. -/
structure PLCOut where
  id : String
  plc_name : String
  plc_no : Option Int
  plc_ip : String
  opcua_url : String
  plc_status : String
  opcua_status : String
  last_checked : Int
  created_at : Int
  address_mappings : List AddrMappingOut
deriving Repr, DecidableEq

/-- The variable join of `getAllPLCs` for one PLC row: the `variables`
rows whose `plc_no` equals the row's `plc_no || 1`, projected. -/
def joinMappings (db : DB) (p : PlcRow) : List AddrMappingOut :=
  (db.«variables».filter (fun v => v.plc_no = jsOrInt p.plc_no 1)).map fun v =>
    { node_name := v.node_name
      node_id := v.reg_address
      description := jsTruthyString v.description
      data_type := v.data_type }

/-- `SqlStorage.getAllPLCs` (storage.ts lines 126-161), also returning the
number of `variables`-table queries it issued (one per PLC row inside the
`if (includeMappings)` branch, none otherwise). -/
def getAllPLCs (db : DB) (includeMappings : Bool) : List PLCOut × Nat :=
  (db.plcs.map fun p =>
    { id := p.id
      plc_name := p.plc_name
      plc_no := jsTruthyInt p.plc_no
      plc_ip := p.plc_ip
      opcua_url := p.opcua_url
      plc_status := p.plc_status
      opcua_status := p.opcua_status
      last_checked := p.last_checked
      created_at := p.created_at
      address_mappings := if includeMappings then joinMappings db p else [] },
   if includeMappings then db.plcs.length else 0)

/-! ## MemStorage (`server/storage.ts` lines 18-64) -/

/-- A PLC object as held by `MemStorage` (the spread `{...config, id, ...}`
built in `MemStorage.createPLC`). -/
structure MemPLC where
  id : String
  plc_name : String
  plc_no : Option Int
  plc_ip : String
  opcua_url : String
  plc_status : String
  opcua_status : String
  last_checked : Int
  created_at : Int
  address_mappings : List AddrMappingIn
deriving Repr, DecidableEq

/-- The in-memory `Map<string, PLC>` plus the `randomUUID()` supply. -/
structure MemDB where
  plcs : List (String × MemPLC)
  nextId : Nat
deriving Repr, DecidableEq

/-- `Map.prototype.set`: replace the value when the key exists, append
otherwise. -/
def memSet (m : List (String × MemPLC)) (k : String) (v : MemPLC) :
    List (String × MemPLC) :=
  if m.any (fun e => e.1 = k) then
    m.map (fun e => if e.1 = k then (k, v) else e)
  else m ++ [(k, v)]

/-- `MemStorage.createPLC` (storage.ts lines 38-50): builds the PLC object
and stores it under its fresh id.  It performs no duplicate-address check
and cannot fail. -/
def memCreatePLC (m : MemDB) (now : Int) (config : PLCConfig) :
    MemDB × MemPLC :=
  let id := uuid m.nextId
  let plc : MemPLC :=
    { id := id
      plc_name := config.plc_name
      plc_no := config.plc_no
      plc_ip := config.plc_ip
      opcua_url := config.opcua_url
      plc_status := "disconnected"
      opcua_status := "disconnected"
      last_checked := now
      created_at := now
      address_mappings := config.address_mappings }
  ({ plcs := memSet m.plcs id plc, nextId := m.nextId + 1 }, plc)

/-! ## Route handlers (`server/routes.ts`) -/

/-- Outcome of the `fetch` to the external gateway: a 2xx response carrying
a body status string, a non-2xx response, or a thrown error (network
failure or the 10-second timeout abort). -/
inductive GatewayOutcome where
  | ok (status : String)
  | httpErr
  | netErr
deriving Repr, DecidableEq

/-- Response of the connect endpoint. -/
inductive ConnectResp where
  | okJson (plc : PlcRow)
  | notFound
  | badRequest
  | serverErr (msg : String)
deriving Repr, DecidableEq

/-- `POST /api/plcs/:id/connect` (routes.ts lines 113-176) over the SQL
storage: 404 when the PLC is unknown, 400 when `plc_no` or `opcua_url` is
falsy; otherwise the gateway call's outcome decides the written status and
the response — a thrown fetch lands in the catch block, which writes the
error status best-effort and answers 500. -/
def connectRoute (db : DB) (id : String) (gw : GatewayOutcome) (now : Int) :
    DB × ConnectResp :=
  match db.plcs.find? (fun p => p.id = id) with
  | none => (db, .notFound)
  | some plc =>
    if jsFalsyInt plc.plc_no || plc.opcua_url = "" then (db, .badRequest)
    else
      match gw with
      | .netErr =>
        let r := sqlUpdatePLC db id
          { status := some "error", is_connected := some false, last_checked := some now }
        (r.1, .serverErr "Failed to connect PLC")
      | .ok s =>
        let updatedStatus := if s = "connected" then "active" else "error"
        let r := sqlUpdatePLC db id
          { status := some updatedStatus, is_connected := some (s = "connected"),
            last_checked := some now }
        match r.2 with
        | some row => (r.1, .okJson row)
        | none => (r.1, .serverErr "Failed to update PLC status")
      | .httpErr =>
        let r := sqlUpdatePLC db id
          { status := some "error", is_connected := some false, last_checked := some now }
        match r.2 with
        | some row => (r.1, .okJson row)
        | none => (r.1, .serverErr "Failed to update PLC status")

/-- Response of the JSON upload endpoint. -/
inductive UploadResp where
  | success (plc : PlcRow)
  | err500 (msg : String)
deriving Repr, DecidableEq

/-- `POST /api/upload/json` (routes.ts lines 366-391) after schema
validation: persists `rawConfig.plcs[0]` through `createPLCFromRaw` and
answers with that PLC; an empty `plcs` array makes the indexed access throw
into the catch-all.  No block beyond index 0 is touched. -/
def uploadJson (db : DB) (now : Int) (docPlcs : List RawPLC) :
    DB × UploadResp :=
  match docPlcs with
  | [] => (db, .err500 "Error processing upload: Failed to process file")
  | b0 :: _ =>
    match createPLCFromRaw db now b0 with
    | .ok (db', plc) => (db', .success plc)
    | .error m => (db, .err500 ("Error processing upload: " ++ m))

/-- One element of the external gateway's `/all-status` bulk reply. -/
structure PyStatus where
  plc_no : Option Int
  opcua_url : String
  plc_status : String
  opcua_status : String
  is_connected : Bool
  status : String
  last_checked : String
  message : String
deriving Repr, DecidableEq

/-- One element of the bulk status endpoint's response array. -/
structure StatusEntry where
  plc_id : String
  plc_no : Option Int
  plc_ip : String
  opcua_url : String
  plc_status : String
  opcua_status : String
  is_connected : Bool
  status : String
  last_checked : String
  message : String
deriving Repr, DecidableEq

/-- `Map.prototype.set` for the `plcMap` keyed by `plc.plc_no`. -/
def plcMapSet (m : List (Option Int × PLCOut)) (k : Option Int) (v : PLCOut) :
    List (Option Int × PLCOut) :=
  if m.any (fun e => e.1 = k) then
    m.map (fun e => if e.1 = k then (k, v) else e)
  else m ++ [(k, v)]

/-- `Map.prototype.get` for the `plcMap`. -/
def plcMapGet (m : List (Option Int × PLCOut)) (k : Option Int) : Option PLCOut :=
  (m.find? (fun e => e.1 = k)).map (fun e => e.2)

/-- `Map.prototype.delete` for the `plcMap`. -/
def plcMapErase (m : List (Option Int × PLCOut)) (k : Option Int) :
    List (Option Int × PLCOut) :=
  m.filter (fun e => e.1 ≠ k)

/-- `new Map(plcs.map(plc => [plc.plc_no, plc]))` (routes.ts line 223). -/
def buildPlcMap (l : List PLCOut) : List (Option Int × PLCOut) :=
  l.foldl (fun m p => plcMapSet m p.plc_no p) []

/-- Running state of the bulk status handler: the database, the remaining
`plcMap`, the `statusResults` accumulated so far, and the ids that received
a status write-back (the `storage.updatePLC` calls issued). -/
structure AllStatusState where
  db : DB
  plcMap : List (Option Int × PLCOut)
  results : List StatusEntry
  touched : List String
deriving Repr, DecidableEq

/-- First loop of `GET /api/plcs/all-status` (routes.ts lines 227-255):
for each gateway status whose `plc_no` is still in the map, write the
status back, emit a result entry and delete the key. -/
def allStatusLoop1 (now : Int) : AllStatusState → List PyStatus → AllStatusState
  | st, [] => st
  | st, py :: rest =>
    match plcMapGet st.plcMap py.plc_no with
    | none => allStatusLoop1 now st rest
    | some plc =>
      let connectionStatus := if py.status = "active" then "active" else "error"
      let r := sqlUpdatePLC st.db plc.id
        { status := some connectionStatus, is_connected := some py.is_connected,
          last_checked := some now }
      let entry : StatusEntry :=
        { plc_id := plc.id
          plc_no := py.plc_no
          plc_ip := plc.plc_ip
          opcua_url := py.opcua_url
          plc_status := py.plc_status
          opcua_status := py.opcua_status
          is_connected := py.is_connected
          status := connectionStatus
          last_checked := py.last_checked
          message := py.message }
      allStatusLoop1 now
        { db := r.1
          plcMap := plcMapErase st.plcMap py.plc_no
          results := st.results ++ [entry]
          touched := st.touched ++ [plc.id] } rest

/-- Second loop of the bulk status handler (routes.ts lines 258-271): every
PLC left in the map is reported as disconnected. -/
def leftoverEntry (nowIso : String) (kv : Option Int × PLCOut) : StatusEntry :=
  { plc_id := kv.2.id
    plc_no := some (jsOrInt kv.2.plc_no 0)
    plc_ip := kv.2.plc_ip
    opcua_url := kv.2.opcua_url
    plc_status := "disconnected"
    opcua_status := "disconnected"
    is_connected := false
    status := "error"
    last_checked := nowIso
    message := "Not connected to backend" }

/-- `GET /api/plcs/all-status` (routes.ts lines 196-281): list the PLCs
without mappings, key them by `plc_no`, merge the gateway's bulk reply
(empty when the gateway was unreachable or non-2xx), then report the
remaining PLCs as disconnected. -/
def allStatus (db : DB) (py : List PyStatus) (now : Int) (nowIso : String) :
    AllStatusState :=
  let plcsOut := (getAllPLCs db false).1
  if plcsOut.isEmpty then { db := db, plcMap := [], results := [], touched := [] }
  else
    let st1 := allStatusLoop1 now
      { db := db, plcMap := buildPlcMap plcsOut, results := [], touched := [] } py
    { st1 with results := st1.results ++ st1.plcMap.map (leftoverEntry nowIso) }

/-! ## Client-side variable grouping (`EnhancedVariablesTable`) -/

/-- A `NormalizedVariable` as displayed by the table, together with the
fields the bit-expansion adds (`isBitRow`, `parentId`, `bitPosition`). -/
structure NVar where
  id : String
  opcua_reg_add : String
  plc_reg_add : String
  description : String
  type : String
  bit_mappings : Option (List (String × BitEntry))
  isBitRow : Bool := false
  parentId : Option String := none
  bitPosition : Int := 0
deriving Repr, DecidableEq

/-- The bit rows synthesized for one bit-mapped channel variable
(part_003 lines 325-340). -/
def expandBitRows (v : NVar) (bits : List (String × BitEntry)) : List NVar :=
  bits.map fun kb =>
    let bitNumber := padStart2 (toString kb.2.bit_position)
    { v with
      id := v.id ++ "_bit_" ++ bitNumber
      opcua_reg_add := replaceFirst v.opcua_reg_add "_BC" ("_" ++ bitNumber)
      plc_reg_add := v.plc_reg_add ++ "_" ++ bitNumber
      description := jsOrString kb.2.description (v.description ++ " - Bit " ++ bitNumber)
      type := "bool"
      isBitRow := true
      parentId := some v.id
      bitPosition := kb.2.bit_position }

/-- Body of the `flatMap` of `transformedVariables` (part_003 lines
321-344): a variable whose node name ends in `_BC` and whose
`metadata.bit_mappings` is present (truthy) expands into its bit rows;
every other variable passes through unchanged. -/
def transformStep (v : NVar) : List NVar :=
  match v.bit_mappings with
  | some bits =>
    if jsEndsWith v.opcua_reg_add "_BC" then expandBitRows v bits else [v]
  | none => [v]

/-- `transformedVariables`: the flat list with every bit-mapped channel
expanded. -/
def transformedVariables (l : List NVar) : List NVar :=
  l.flatMap transformStep

/-- JS falsiness of a nullable string (`!a`). -/
def jsFalsyString (o : Option String) : Bool :=
  match o with
  | some s => s = ""
  | none => true

/-- `getParentVariables` (part_003 lines 346-348). -/
def getParentVariables (vars : List NVar) : List NVar :=
  vars.filter (fun v => v.type = "channel" || jsFalsyString v.parentId)

/-- `getChildVariables` (part_003 lines 350-352). -/
def getChildVariables (vars : List NVar) (parentId : String) : List NVar :=
  vars.filter (fun v => v.parentId = some parentId)

/-! ## Concrete sample inputs used by counterexamples and witnesses -/

/-- An empty database. -/
def emptyDB : DB := { plcs := [], «variables» := [], nextId := 0 }

/-- A raw block with one bit-mapped channel whose single bit entry carries
no description. -/
def c1Raw : RawPLC :=
  { plc_name := "Line1", plc_no := some 3, plc_ip := "10.0.0.5", opcua_url := "opc.tcp://x",
    address_mappings :=
      [{ opcua_reg_add := "M10_BC", plc_reg_add := "M10", description := some "Chan",
         data_type := none,
         bit_mappings := some [("0", { address := "M10.0", description := none, bit_position := 0 })] }] }

/-- A raw block whose single mapping carries a present but empty
`bit_mappings` object. -/
def c2RawEmptyBits : RawPLC :=
  { plc_name := "P", plc_no := some 2, plc_ip := "10.0.0.6", opcua_url := "u",
    address_mappings :=
      [{ opcua_reg_add := "A", plc_reg_add := "R", description := some "d",
         data_type := some "int", bit_mappings := some [] }] }

/-- A raw block whose single plain mapping carries the empty string as data
type. -/
def c2RawEmptyType : RawPLC :=
  { plc_name := "P", plc_no := some 2, plc_ip := "10.0.0.7", opcua_url := "u",
    address_mappings :=
      [{ opcua_reg_add := "B", plc_reg_add := "S", description := none,
         data_type := some "", bit_mappings := none }] }

/-- A raw block with one bit-mapped channel, used to discharge hypotheses of
the amended normalization theorems. -/
def c1cfg : PLCConfig :=
  { plc_name := "P", plc_no := some 1, plc_ip := "10.0.0.5", opcua_url := "u",
    address_mappings := [] }

/-- A stored PLC row used by the route and storage witnesses. -/
def sampleRow : PlcRow :=
  { id := "p1", plc_name := "Line1", plc_no := some 3, plc_ip := "10.0.0.5",
    opcua_url := "opc.tcp://x", plc_status := "disconnected",
    opcua_status := "disconnected", last_checked := 10, created_at := 5 }

/-- A second stored PLC row sharing `plc_no` with `sampleRow`. -/
def sampleRow2 : PlcRow :=
  { id := "p2", plc_name := "Line2", plc_no := some 3, plc_ip := "10.0.0.9",
    opcua_url := "opc.tcp://y", plc_status := "disconnected",
    opcua_status := "disconnected", last_checked := 11, created_at := 6 }

/-- A database holding `sampleRow` and two variable rows on PLC numbers 3
and 1. -/
def sampleDB : DB :=
  { plcs := [sampleRow]
    «variables» :=
      [{ id := "v1", plc_no := 3, node_name := "M10_BC_00", description := some "Start",
         reg_address := "M10.0", data_type := "bool", user_description := none },
       { id := "v2", plc_no := 1, node_name := "N1", description := none,
         reg_address := "N1", data_type := "string", user_description := none }]
    nextId := 7 }

/-- A database holding two PLCs that share PLC number 3. -/
def dupNoDB : DB :=
  { plcs := [sampleRow, sampleRow2], «variables» := [], nextId := 9 }

/-- A database whose PLC has the falsy PLC number 0 and whose variable rows
live on PLC numbers 0 and 1. -/
def zeroNoDB : DB :=
  { plcs := [{ sampleRow with plc_no := some 0 }]
    «variables» :=
      [{ id := "v0", plc_no := 0, node_name := "Z0", description := none,
         reg_address := "Z0", data_type := "string", user_description := none },
       { id := "v1", plc_no := 1, node_name := "O1", description := none,
         reg_address := "O1", data_type := "string", user_description := none }]
    nextId := 3 }

/-- An in-memory store already holding a PLC with address `10.0.0.5`. -/
def memDupDB : MemDB :=
  { plcs :=
      [("m1",
        { id := "m1", plc_name := "Old", plc_no := some 1, plc_ip := "10.0.0.5",
          opcua_url := "u", plc_status := "disconnected", opcua_status := "disconnected",
          last_checked := 1, created_at := 1, address_mappings := [] })]
    nextId := 4 }

/-- A config whose address duplicates the one already stored. -/
def dupConfig : PLCConfig :=
  { plc_name := "New", plc_no := some 2, plc_ip := "10.0.0.5", opcua_url := "u2",
    address_mappings := [{ node_name := "N", node_id := "R", description := none, data_type := none }] }

/-- A bit-mapped channel whose node name contains `_BC` twice, so its
synthesized bit rows again end in `_BC`. -/
def c7V : NVar :=
  { id := "v1", opcua_reg_add := "A_BC_BC", plc_reg_add := "R", description := "d",
    type := "channel",
    bit_mappings := some [("0", { address := "a0", description := some "bd", bit_position := 0 })] }

/-- A well-formed bit-mapped channel (single `_BC` suffix) with two bit
entries, and a plain variable, for the grouping witnesses. -/
def c7Chan : NVar :=
  { id := "c1", opcua_reg_add := "M10_BC", plc_reg_add := "M10", description := "chan",
    type := "channel",
    bit_mappings := some [("0", { address := "M10.0", description := some "Start", bit_position := 0 }),
                          ("1", { address := "M10.1", description := none, bit_position := 1 })] }

/-- A plain (non-channel) variable. -/
def c7Plain : NVar :=
  { id := "w1", opcua_reg_add := "N5", plc_reg_add := "N5", description := "plain",
    type := "word", bit_mappings := none }

/-- A gateway bulk reply matching PLC number 3. -/
def samplePy : PyStatus :=
  { plc_no := some 3, opcua_url := "opc.tcp://x", plc_status := "connected",
    opcua_status := "connected", is_connected := true, status := "active",
    last_checked := "t1", message := "ok" }

/-- The PLC row `createPLCFromRaw emptyDB 0 c1Raw` returns. -/
def c1PlcRes : PlcRow :=
  { id := "uuid-0", plc_name := "Line1", plc_no := some 3, plc_ip := "10.0.0.5",
    opcua_url := "opc.tcp://x", plc_status := "disconnected",
    opcua_status := "disconnected", last_checked := 0, created_at := 0 }

/-- The database `createPLCFromRaw emptyDB 0 c1Raw` produces. -/
def c1DBres : DB :=
  { plcs := [c1PlcRes]
    «variables» :=
      [{ id := "uuid-1", plc_no := 3, node_name := "M10_BC_00", description := none,
         reg_address := "M10.0", data_type := "bool", user_description := none }]
    nextId := 2 }

/-- The mapping of `c2RawEmptyType`. -/
def c2Mapping : RawMapping :=
  { opcua_reg_add := "B", plc_reg_add := "S", description := none,
    data_type := some "", bit_mappings := none }

/-- The PLC row `createPLCFromRaw emptyDB 0 c2RawEmptyType` returns. -/
def c2PlcRes : PlcRow :=
  { id := "uuid-0", plc_name := "P", plc_no := some 2, plc_ip := "10.0.0.7",
    opcua_url := "u", plc_status := "disconnected",
    opcua_status := "disconnected", last_checked := 0, created_at := 0 }

/-- The database `createPLCFromRaw emptyDB 0 c2RawEmptyType` produces. -/
def c2DBres : DB :=
  { plcs := [c2PlcRes]
    «variables» :=
      [{ id := "uuid-1", plc_no := 2, node_name := "B", description := some "",
         reg_address := "S", data_type := "string", user_description := none }]
    nextId := 2 }

/-- The PLC object `getAllPLCs sampleDB false` returns for `sampleRow`. -/
def sampleOut : PLCOut :=
  { id := "p1", plc_name := "Line1", plc_no := some 3, plc_ip := "10.0.0.5",
    opcua_url := "opc.tcp://x", plc_status := "disconnected",
    opcua_status := "disconnected", last_checked := 10, created_at := 5,
    address_mappings := [] }

/-- A partial update touching only the display name and the caller-supplied
timestamp. -/
def c8U : PlcUpdates :=
  { plc_name := some "Renamed", last_checked := some 77 }

/-- The PLC object `getAllPLCs dupNoDB false` returns for `sampleRow2`. -/
def sampleOut2 : PLCOut :=
  { id := "p2", plc_name := "Line2", plc_no := some 3, plc_ip := "10.0.0.9",
    opcua_url := "opc.tcp://y", plc_status := "disconnected",
    opcua_status := "disconnected", last_checked := 11, created_at := 6,
    address_mappings := [] }

/-! ## Helper lemmas -/

/-- `find?` by id commutes with an in-place row update that keeps ids. -/
theorem find?_map_update (l : List PlcRow) (id : String) (f : PlcRow → PlcRow)
    (hf : ∀ p, (f p).id = p.id) :
    (l.map (fun p => if p.id = id then f p else p)).find? (fun p => p.id = id)
      = (l.find? (fun p => p.id = id)).map f := by
  induction l with
  | nil => rfl
  | cons a t ih =>
    by_cases h : a.id = id
    · simp [List.find?_cons, h, hf]
    · simp [List.find?_cons, h, ih]

/-- The write-back payload the connect and status routes pass to
`updatePLC` changes only `last_checked`: the legacy `status` and
`is_connected` fields have no case in `SqlStorage.updatePLC`. -/
theorem applyUpdates_route_writeback (p : PlcRow) (s : String) (b : Bool) (now : Int) :
    applyUpdates p
      { status := some s, is_connected := some b, last_checked := some now }
      = { p with last_checked := now } := rfl

/-- Characterization of `sqlUpdatePLC` on a found row. -/
theorem sqlUpdatePLC_found (db : DB) (id : String) (u : PlcUpdates) (old : PlcRow)
    (h : db.plcs.find? (fun p => p.id = id) = some old) :
    sqlUpdatePLC db id u =
      ({ db with plcs := db.plcs.map (fun p => if p.id = id then applyUpdates p u else p) },
       some (applyUpdates old u)) := by
  unfold sqlUpdatePLC
  rw [h]
  simp only [find?_map_update db.plcs id (fun p => applyUpdates p u) (fun _ => rfl), h,
    Option.map_some']

/-- The variable rows persisted by a successful `createPLCFromRaw` call. -/
theorem createPLCFromRaw_ok_variables (db : DB) (now : Int) (raw : RawPLC)
    (db' : DB) (plc : PlcRow) (h : createPLCFromRaw db now raw = .ok (db', plc)) :
    db'.«variables» = db.«variables» ++
      assignIds (db.nextId + 1)
        (raw.address_mappings.flatMap (rawMappingRows (jsOrInt raw.plc_no 1))) := by
  unfold createPLCFromRaw at h
  split at h
  · exact absurd h (by simp)
  · simp only [Except.ok.injEq, Prod.mk.injEq] at h
    rw [← h.1]

/-- `assignIds` keeps the number of rows. -/
theorem assignIds_length (n : Nat) (l : List VarRow) :
    (assignIds n l).length = l.length := by
  induction l generalizing n with
  | nil => rfl
  | cons r rs ih => simp [assignIds, ih]

/-- `assignIds` changes nothing but the `id` column. -/
theorem assignIds_fields (n : Nat) (l : List VarRow) :
    (assignIds n l).map (fun r => { r with id := "" })
      = l.map (fun r => { r with id := "" }) := by
  induction l generalizing n with
  | nil => rfl
  | cons r rs ih => simp [assignIds, ih]

/-- Every row of `transformStep v` carries either `v`'s own `parentId` or
`some v.id`. -/
theorem transformStep_parentId (v r : NVar) (h : r ∈ transformStep v) :
    r.parentId = v.parentId ∨ r.parentId = some v.id := by
  cases hb : v.bit_mappings with
  | none => simp [transformStep, hb] at h; subst h; exact Or.inl rfl
  | some bits =>
    by_cases hend : jsEndsWith v.opcua_reg_add "_BC"
    · simp only [transformStep, hb, hend, if_true] at h
      unfold expandBitRows at h
      simp only [List.mem_map] at h
      obtain ⟨kb, _, hk⟩ := h
      subst hk
      exact Or.inr rfl
    · simp [transformStep, hb, hend] at h; subst h; exact Or.inl rfl

/-- A list each of whose rows passes through `transformStep` unchanged is a
fixed point of the expansion. -/
theorem flatMap_transformStep_fixed (l : List NVar)
    (h : ∀ r ∈ l, transformStep r = [r]) :
    l.flatMap transformStep = l := by
  induction l with
  | nil => rfl
  | cons r t ih =>
    simp only [List.flatMap_cons, h r (List.mem_cons_self r t)]
    simp only [List.singleton_append, List.cons.injEq, true_and]
    exact ih (fun x hx => h x (List.mem_cons_of_mem r hx))

/-- Rows synthesized by `expandBitRows` keep the channel's `bit_mappings`
and get `parentId := some v.id`. -/
theorem expandBitRows_mem (v : NVar) (bits : List (String × BitEntry)) (r : NVar)
    (h : r ∈ expandBitRows v bits) :
    r.bit_mappings = v.bit_mappings ∧ r.parentId = some v.id ∧
      ∃ kb ∈ bits, r.opcua_reg_add =
        replaceFirst v.opcua_reg_add "_BC" ("_" ++ padStart2 (toString kb.2.bit_position)) := by
  unfold expandBitRows at h
  simp only [List.mem_map] at h
  obtain ⟨kb, hkb, hr⟩ := h
  subst hr
  exact ⟨rfl, rfl, kb, hkb, rfl⟩

/-- A single step is a fixed point of the expansion when the synthesized
names can no longer end in `_BC`. -/
theorem transform_step_fixed (v : NVar)
    (hv : ∀ bits, v.bit_mappings = some bits →
      jsEndsWith v.opcua_reg_add "_BC" = true →
      ∀ kb ∈ bits,
        jsEndsWith (replaceFirst v.opcua_reg_add "_BC"
          ("_" ++ padStart2 (toString kb.2.bit_position))) "_BC" = false) :
    (transformStep v).flatMap transformStep = transformStep v := by
  apply flatMap_transformStep_fixed
  intro r hr
  cases hb : v.bit_mappings with
  | none => simp [transformStep, hb] at hr; subst hr; simp [transformStep, hb]
  | some bits =>
    by_cases hend : jsEndsWith v.opcua_reg_add "_BC"
    · simp only [transformStep, hb, hend, if_true] at hr
      obtain ⟨hbm, _, kb, hkb, hname⟩ := expandBitRows_mem v bits r hr
      have hrend : jsEndsWith r.opcua_reg_add "_BC" = false := by
        rw [hname]; exact hv bits hb hend kb hkb
      rw [hb] at hbm
      simp [transformStep, hbm, hrend]
    · simp [transformStep, hb, hend] at hr; subst hr; simp [transformStep, hb, hend]

/-- Children filtering distributes over the expansion. -/
theorem getChildVariables_flatMap (l : List NVar) (pid : String) :
    getChildVariables (l.flatMap transformStep) pid
      = l.flatMap (fun v => getChildVariables (transformStep v) pid) := by
  unfold getChildVariables
  induction l with
  | nil => rfl
  | cons v t ih => simp [List.flatMap_cons, List.filter_append, ih]

/-- A non-channel step contributes no children of `pid` when its own id and
`parentId` do not point at `pid`. -/
theorem getChildVariables_step_other (v : NVar) (pid : String)
    (hid : v.id ≠ pid) (hpar : v.parentId = none) :
    getChildVariables (transformStep v) pid = [] := by
  unfold getChildVariables
  rw [List.filter_eq_nil_iff]
  intro r hr
  rcases transformStep_parentId v r hr with h | h <;> rw [h]
  · rw [hpar]; simp
  · simp [hid]

/-- The bit positions of the synthesized rows are the entries' bit
positions, in entry order. -/
theorem expandBitRows_bitPositions (v : NVar) (bits : List (String × BitEntry)) :
    (expandBitRows v bits).map NVar.bitPosition
      = bits.map (fun kb => kb.2.bit_position) := by
  unfold expandBitRows
  rw [List.map_map]
  rfl

/-- The children the display groups under a bit-mapped channel are exactly
its synthesized rows, in `bit_mappings` entry order. -/
theorem getChildVariables_transform (l : List NVar) (v : NVar)
    (bits : List (String × BitEntry))
    (hnodup : (l.map NVar.id).Nodup) (hpar : ∀ w ∈ l, w.parentId = none)
    (hv : v ∈ l) (hbits : v.bit_mappings = some bits)
    (hbc : jsEndsWith v.opcua_reg_add "_BC" = true) :
    getChildVariables (transformedVariables l) v.id = expandBitRows v bits := by
  unfold transformedVariables
  rw [getChildVariables_flatMap]
  induction l with
  | nil => exact absurd hv (List.not_mem_nil v)
  | cons w t ih =>
    simp only [List.map_cons, List.nodup_cons] at hnodup
    rcases List.mem_cons.mp hv with hvw | hvt
    · subst hvw
      have hstep : transformStep v = expandBitRows v bits := by
        simp [transformStep, hbits, hbc]
      have hrest : t.flatMap (fun u => getChildVariables (transformStep u) v.id) = [] := by
        rw [List.flatMap_eq_nil_iff]
        intro u hu
        exact getChildVariables_step_other u v.id
          (fun he => hnodup.1 (he ▸ List.mem_map_of_mem NVar.id hu))
          (hpar u (List.mem_cons_of_mem v hu))
      have hself : getChildVariables (expandBitRows v bits) v.id = expandBitRows v bits := by
        unfold getChildVariables
        rw [List.filter_eq_self]
        intro r hr
        have := (expandBitRows_mem v bits r hr).2.1
        simp [this]
      simp only [List.flatMap_cons, hstep, hrest, List.append_nil, hself]
    · have hwid : w.id ≠ v.id := by
        intro he
        exact hnodup.1 (he ▸ List.mem_map_of_mem NVar.id hvt)
      have hw : getChildVariables (transformStep w) v.id = [] :=
        getChildVariables_step_other w v.id hwid (hpar w (List.mem_cons_self w t))
      simp only [List.flatMap_cons, hw, List.nil_append]
      exact ih hnodup.2 (fun u hu => hpar u (List.mem_cons_of_mem w hu)) hvt

/-- Membership after a `plcMap` set. -/
theorem plcMapSet_mem (m : List (Option Int × PLCOut)) (k : Option Int) (v : PLCOut)
    (kv : Option Int × PLCOut) (h : kv ∈ plcMapSet m k v) : kv ∈ m ∨ kv = (k, v) := by
  unfold plcMapSet at h
  split at h
  · rcases List.mem_map.mp h with ⟨e, he, hkv⟩
    by_cases hek : e.1 = k
    · simp only [hek, if_true] at hkv; exact Or.inr hkv.symm
    · simp only [hek, if_false] at hkv; exact Or.inl (hkv ▸ he)
  · rcases List.mem_append.mp h with h' | h'
    · exact Or.inl h'
    · exact Or.inr (List.mem_singleton.mp h')

/-- Keys after a `plcMap` set: unchanged when the key was present, extended
by the key otherwise. -/
theorem plcMapSet_keys (m : List (Option Int × PLCOut)) (k : Option Int) (v : PLCOut) :
    (plcMapSet m k v).map Prod.fst =
      if m.any (fun e => e.1 = k) then m.map Prod.fst else m.map Prod.fst ++ [k] := by
  unfold plcMapSet
  split
  · rw [List.map_map]
    apply List.map_congr_left
    intro e _
    by_cases hek : e.1 = k
    · simp [hek]
    · simp [hek]
  · simp

/-- Every pair of the built `plcMap` is a stored PLC keyed by its own
`plc_no`. -/
theorem mem_buildPlcMap (l : List PLCOut) (kv : Option Int × PLCOut)
    (h : kv ∈ buildPlcMap l) : kv.2 ∈ l ∧ kv.1 = kv.2.plc_no := by
  suffices hgen : ∀ (l' : List PLCOut) (m : List (Option Int × PLCOut)),
      (∀ e ∈ m, e.2 ∈ l ∧ e.1 = e.2.plc_no) → (∀ p ∈ l', p ∈ l) →
      ∀ e ∈ l'.foldl (fun acc p => plcMapSet acc p.plc_no p) m, e.2 ∈ l ∧ e.1 = e.2.plc_no by
    exact hgen l [] (by intro e he; exact absurd he (List.not_mem_nil e))
      (fun p hp => hp) kv h
  intro l'
  induction l' with
  | nil => intro m hm _ e he; exact hm e he
  | cons p t ih =>
    intro m hm hsub e he
    simp only [List.foldl_cons] at he
    refine ih (plcMapSet m p.plc_no p) ?_ (fun q hq => hsub q (List.mem_cons_of_mem p hq)) e he
    intro f hf
    rcases plcMapSet_mem m p.plc_no p f hf with h' | h'
    · exact hm f h'
    · subst h'; exact ⟨hsub p (List.mem_cons_self p t), rfl⟩

/-- The built `plcMap` has pairwise distinct keys. -/
theorem buildPlcMap_keys_nodup (l : List PLCOut) :
    ((buildPlcMap l).map Prod.fst).Nodup := by
  suffices hgen : ∀ (l' : List PLCOut) (m : List (Option Int × PLCOut)),
      (m.map Prod.fst).Nodup →
      ((l'.foldl (fun acc p => plcMapSet acc p.plc_no p) m).map Prod.fst).Nodup by
    exact hgen l [] List.nodup_nil
  intro l'
  induction l' with
  | nil => intro m hm; exact hm
  | cons p t ih =>
    intro m hm
    simp only [List.foldl_cons]
    apply ih
    rw [plcMapSet_keys]
    split
    · exact hm
    · apply List.Nodup.append hm (List.nodup_singleton _)
      intro a ha hb
      rw [List.mem_singleton] at hb
      subst hb
      rcases List.mem_map.mp ha with ⟨e, he, hek⟩
      have : m.any (fun e => e.1 = p.plc_no) = true :=
        List.any_eq_true.mpr ⟨e, he, by simp [hek]⟩
      simp_all

/-- Everything the first status loop emits or writes back traces to a value
of the map it started from, and the map only shrinks. -/
theorem allStatusLoop1_trace (now : Int) (py : List PyStatus) :
    ∀ st : AllStatusState,
      (∀ i, i ∈ (allStatusLoop1 now st py).results.map StatusEntry.plc_id →
        i ∈ st.results.map StatusEntry.plc_id ∨ ∃ kv ∈ st.plcMap, kv.2.id = i)
      ∧ (∀ i, i ∈ (allStatusLoop1 now st py).touched →
        i ∈ st.touched ∨ ∃ kv ∈ st.plcMap, kv.2.id = i)
      ∧ (∀ kv ∈ (allStatusLoop1 now st py).plcMap, kv ∈ st.plcMap) := by
  induction py with
  | nil => intro st; exact ⟨fun i hi => Or.inl hi, fun i hi => Or.inl hi, fun kv hkv => hkv⟩
  | cons p t ih =>
    intro st
    unfold allStatusLoop1
    cases hget : plcMapGet st.plcMap p.plc_no with
    | none => exact ih st
    | some plc =>
      have hplcmem : ∃ kv ∈ st.plcMap, kv.2 = plc := by
        unfold plcMapGet at hget
        rcases Option.map_eq_some'.mp hget with ⟨kv, hf, hkv⟩
        exact ⟨kv, List.mem_of_find?_eq_some hf, hkv⟩
      obtain ⟨kv0, hkv0, hkv0v⟩ := hplcmem
      refine ⟨?_, ?_, ?_⟩
      · intro i hi
        rcases (ih _).1 i hi with h' | ⟨kv, hkv, hkvi⟩
        · simp only [List.map_append, List.mem_append] at h'
          rcases h' with h'' | h''
          · exact Or.inl h''
          · simp only [List.map_cons, List.map_nil, List.mem_singleton] at h''
            exact Or.inr ⟨kv0, hkv0, by rw [hkv0v, ← h'']⟩
        · exact Or.inr ⟨kv, List.mem_of_mem_filter hkv, hkvi⟩
      · intro i hi
        rcases (ih _).2.1 i hi with h' | ⟨kv, hkv, hkvi⟩
        · rcases List.mem_append.mp h' with h'' | h''
          · exact Or.inl h''
          · rw [List.mem_singleton] at h''
            exact Or.inr ⟨kv0, hkv0, by rw [hkv0v, ← h'']⟩
        · exact Or.inr ⟨kv, List.mem_of_mem_filter hkv, hkvi⟩
      · intro kv hkv
        exact List.mem_of_mem_filter ((ih _).2.2 kv hkv)

/-- Every id the bulk status endpoint answers for, or writes back to, is the
id of a value of the map built from the stored PLC list. -/
theorem allStatus_trace (db : DB) (py : List PyStatus) (now : Int) (nowIso : String)
    (i : String)
    (h : i ∈ (allStatus db py now nowIso).results.map StatusEntry.plc_id
       ∨ i ∈ (allStatus db py now nowIso).touched) :
    ∃ kv ∈ buildPlcMap (getAllPLCs db false).1, kv.2.id = i := by
  by_cases hemp : ((getAllPLCs db false).1).isEmpty
  · simp [allStatus, hemp] at h
  · simp only [allStatus, hemp, Bool.false_eq_true, if_false] at h
    set st0 : AllStatusState :=
      { db := db, plcMap := buildPlcMap (getAllPLCs db false).1, results := [], touched := [] }
      with hst0
    have htr := allStatusLoop1_trace now py st0
    rcases h with h | h
    · simp only [List.map_append, List.mem_append] at h
      rcases h with h | h
      · rcases htr.1 i h with h' | ⟨kv, hkv, hkvi⟩
        · simp [hst0] at h'
        · exact ⟨kv, hkv, hkvi⟩
      · rw [List.map_map] at h
        rcases List.mem_map.mp h with ⟨kv, hkv, hkvi⟩
        exact ⟨kv, htr.2.2 kv hkv, hkvi⟩
    · rcases htr.2.1 i h with h' | ⟨kv, hkv, hkvi⟩
      · simp [hst0] at h'
      · exact ⟨kv, hkv, hkvi⟩

/-- The expansion is idempotent on lists whose synthesized bit-row names no
longer end in `_BC`. -/
theorem transform_idem : ∀ l : List NVar,
    (∀ v ∈ l, ∀ bits, v.bit_mappings = some bits →
      jsEndsWith v.opcua_reg_add "_BC" = true →
      ∀ kb ∈ bits, jsEndsWith (replaceFirst v.opcua_reg_add "_BC"
        ("_" ++ padStart2 (toString kb.2.bit_position))) "_BC" = false) →
    transformedVariables (transformedVariables l) = transformedVariables l := by
  intro l
  induction l with
  | nil => intro _; rfl
  | cons v t ih =>
    intro hre
    unfold transformedVariables at *
    simp only [List.flatMap_cons, List.flatMap_append]
    rw [transform_step_fixed v (fun bits hb he kb hkb =>
          hre v (List.mem_cons_self v t) bits hb he kb hkb),
        ih (fun u hu bits hb he kb hkb =>
          hre u (List.mem_cons_of_mem v hu) bits hb he kb hkb)]

/-! ## Claim C1 -/

/-- C1 counterexample: uploading a raw block whose single bit entry carries
no description persists a variable row whose description is null, not the
generated fallback `"Chan - Bit 00"` the claim requires for an absent bit
description. -/
theorem c1_counterexample :
    (dbAfter emptyDB (createPLCFromRaw emptyDB 0 c1Raw)).«variables».map VarRow.description
      ≠ [some "Chan - Bit 00"]
    ∧ (dbAfter emptyDB (createPLCFromRaw emptyDB 0 c1Raw)).«variables».map VarRow.description
        = [none] := by
  decide

/-- C1 (amended): for every raw block accepted by `createPLCFromRaw` and
every mapping whose `metadata.bit_mappings` is present, exactly one boolean
variable row per bit entry is persisted — node name
`{opcua_reg_add}_{key padded to two digits}`, register address the entry's
address, description the entry's description exactly as given (no fallback
is generated at persist time), data type `"bool"` — and no row is persisted
for the parent mapping itself. -/
theorem c1_bit_mapped_rows (db : DB) (now : Int) (raw : RawPLC) (db' : DB) (plc : PlcRow)
    (h : createPLCFromRaw db now raw = .ok (db', plc)) :
    db'.«variables» = db.«variables» ++
      assignIds (db.nextId + 1)
        (raw.address_mappings.flatMap (rawMappingRows (jsOrInt raw.plc_no 1)))
    ∧ ∀ m ∈ raw.address_mappings, ∀ bits, m.bit_mappings = some bits →
        rawMappingRows (jsOrInt raw.plc_no 1) m =
          bits.map (fun kb =>
            { id := ""
              plc_no := jsOrInt raw.plc_no 1
              node_name := m.opcua_reg_add ++ "_" ++ padStart2 kb.1
              description := kb.2.description
              reg_address := kb.2.address
              data_type := "bool"
              user_description := none })
        ∧ (rawMappingRows (jsOrInt raw.plc_no 1) m).length = bits.length
        ∧ ∀ r ∈ rawMappingRows (jsOrInt raw.plc_no 1) m,
            r.node_name ≠ m.opcua_reg_add := by
  refine ⟨createPLCFromRaw_ok_variables db now raw db' plc h, ?_⟩
  intro m _ bits hbits
  refine ⟨by simp [rawMappingRows, hbits], by simp [rawMappingRows, hbits], ?_⟩
  intro r hr
  simp only [rawMappingRows, hbits, List.mem_map] at hr
  obtain ⟨kb, _, hk⟩ := hr
  subst hk
  intro heq
  have hlen := congrArg String.length heq
  rw [String.length_append, String.length_append] at hlen
  have h1 : ("_" : String).length = 1 := rfl
  omega

/-- C1 witness: the amended theorem applied to the sample upload. -/
theorem c1_witness :
    createPLCFromRaw emptyDB 0 c1Raw = Except.ok (c1DBres, c1PlcRes)
    ∧ c1DBres.«variables» = emptyDB.«variables» ++
        assignIds (emptyDB.nextId + 1)
          (c1Raw.address_mappings.flatMap (rawMappingRows (jsOrInt c1Raw.plc_no 1))) :=
  ⟨by rfl,
   (c1_bit_mapped_rows emptyDB 0 c1Raw c1DBres c1PlcRes (by rfl)).1⟩

/-! ## Claim C2 -/

/-- C2 counterexample: a mapping whose `metadata.bit_mappings` is present
but empty is NOT a present-and-non-empty bit map, yet `createPLCFromRaw`
persists zero variable rows for it, not the one row the claim requires; and
a mapping carrying the empty string as data type is persisted with data
type `"string"`, not its own (empty) data type. -/
theorem c2_counterexample :
    (dbAfter emptyDB (createPLCFromRaw emptyDB 0 c2RawEmptyBits)).«variables».length = 0
    ∧ (0 : Nat) ≠ 1
    ∧ (dbAfter emptyDB (createPLCFromRaw emptyDB 0 c2RawEmptyType)).«variables».map VarRow.data_type
        = ["string"] := by
  decide

/-- C2 (amended): for every mapping whose `metadata.bit_mappings` is absent
(null/undefined — a present-but-empty object instead takes the bit branch
and yields zero rows), exactly one variable row is persisted, with the
mapping's node name `opcua_reg_add`, register address `plc_reg_add`,
description defaulting to `""` when falsy, and data type defaulting to
`"string"` when absent or empty. -/
theorem c2_plain_mapping_row (db : DB) (now : Int) (raw : RawPLC) (db' : DB) (plc : PlcRow)
    (h : createPLCFromRaw db now raw = .ok (db', plc)) :
    db'.«variables» = db.«variables» ++
      assignIds (db.nextId + 1)
        (raw.address_mappings.flatMap (rawMappingRows (jsOrInt raw.plc_no 1)))
    ∧ ∀ m ∈ raw.address_mappings, m.bit_mappings = none →
        rawMappingRows (jsOrInt raw.plc_no 1) m =
          [{ id := ""
             plc_no := jsOrInt raw.plc_no 1
             node_name := m.opcua_reg_add
             description := some (jsOrString m.description "")
             reg_address := m.plc_reg_add
             data_type := jsOrString m.data_type "string"
             user_description := none }]
        ∧ (rawMappingRows (jsOrInt raw.plc_no 1) m).length = 1 := by
  refine ⟨createPLCFromRaw_ok_variables db now raw db' plc h, ?_⟩
  intro m _ hbits
  exact ⟨by simp [rawMappingRows, hbits], by simp [rawMappingRows, hbits]⟩

/-- C2 witness: the amended theorem applied to a plain-mapping upload. -/
theorem c2_witness :
    createPLCFromRaw emptyDB 0 c2RawEmptyType = Except.ok (c2DBres, c2PlcRes)
    ∧ c2Mapping ∈ c2RawEmptyType.address_mappings
    ∧ c2Mapping.bit_mappings = none
    ∧ rawMappingRows (jsOrInt c2RawEmptyType.plc_no 1) c2Mapping =
        [{ id := ""
           plc_no := jsOrInt c2RawEmptyType.plc_no 1
           node_name := c2Mapping.opcua_reg_add
           description := some (jsOrString c2Mapping.description "")
           reg_address := c2Mapping.plc_reg_add
           data_type := jsOrString c2Mapping.data_type "string"
           user_description := none }] :=
  ⟨by rfl, by decide, by rfl,
   ((c2_plain_mapping_row emptyDB 0 c2RawEmptyType c2DBres c2PlcRes (by rfl)).2
     c2Mapping (by decide) rfl).1⟩

/-! ## Claim C3 -/

/-- C3 counterexample: `MemStorage.createPLC` performs no duplicate-address
check — submitting a config whose address is already stored succeeds (the
operation is total and cannot fail) and leaves the store with two PLCs on
the same address, where the claim requires the call to fail and add
nothing. -/
theorem c3_counterexample :
    ((memCreatePLC memDupDB 7 dupConfig).1.plcs.countP
        (fun e => e.2.plc_ip = "10.0.0.5")) = 2
    ∧ (memDupDB.plcs.countP (fun e => e.2.plc_ip = "10.0.0.5")) = 1 := by
  decide

/-- C3 (amended): for the SQL storage the invariant holds — when a PLC with
the submitted network address already exists, both `createPLC` and
`createPLCFromRaw` throw the duplicate-registration error and the database
(every pre-existing PLC row and every variable row) is left unchanged.
`MemStorage.createPLC` enforces no such invariant. -/
theorem c3_sql_duplicate_rejected (db : DB) (now : Int) (cfg : PLCConfig) (raw : RawPLC)
    (hc : ∃ p ∈ db.plcs, p.plc_ip = cfg.plc_ip)
    (hr : ∃ p ∈ db.plcs, p.plc_ip = raw.plc_ip) :
    (∃ msg, sqlCreatePLC db now cfg = .error msg)
    ∧ dbAfter db (sqlCreatePLC db now cfg) = db
    ∧ (∃ msg, createPLCFromRaw db now raw = .error msg)
    ∧ dbAfter db (createPLCFromRaw db now raw) = db := by
  obtain ⟨p, hp, hip⟩ := hc
  obtain ⟨q, hq, hiq⟩ := hr
  have hany1 : db.plcs.any (fun x => x.plc_ip = cfg.plc_ip) = true :=
    List.any_eq_true.mpr ⟨p, hp, by simp [hip]⟩
  have hany2 : db.plcs.any (fun x => x.plc_ip = raw.plc_ip) = true :=
    List.any_eq_true.mpr ⟨q, hq, by simp [hiq]⟩
  have e1 : sqlCreatePLC db now cfg = .error ("PLC with IP " ++ cfg.plc_ip ++
      " is already registered. To change it, delete the existing PLC and reupload the file.") := by
    simp [sqlCreatePLC, hany1]
  have e2 : createPLCFromRaw db now raw = .error ("PLC with IP " ++ raw.plc_ip ++
      " is already registered. To change it, delete the existing PLC and reupload the file.") := by
    simp [createPLCFromRaw, hany2]
  exact ⟨⟨_, e1⟩, by rw [e1]; rfl, ⟨_, e2⟩, by rw [e2]; rfl⟩

/-- C3 witness: both SQL create operations rejecting the duplicate address
`10.0.0.5` without touching the stored state. -/
theorem c3_witness :
    (∃ p ∈ sampleDB.plcs, p.plc_ip = dupConfig.plc_ip)
    ∧ (∃ p ∈ sampleDB.plcs, p.plc_ip = c1Raw.plc_ip)
    ∧ dbAfter sampleDB (sqlCreatePLC sampleDB 0 dupConfig) = sampleDB
    ∧ dbAfter sampleDB (createPLCFromRaw sampleDB 0 c1Raw) = sampleDB :=
  ⟨by decide, by decide,
   (c3_sql_duplicate_rejected sampleDB 0 dupConfig c1Raw (by decide) (by decide)).2.1,
   (c3_sql_duplicate_rejected sampleDB 0 dupConfig c1Raw (by decide) (by decide)).2.2.2⟩

/-! ## Claim C4 -/

/-- C4 counterexample: with the gateway unreachable (the fetch throws), the
connect endpoint answers 500 "Failed to connect PLC" — not the updated PLC
object — and the stored `plc_status` remains "disconnected" rather than
"error" (the route's `status`/`is_connected` fields are not columns
`updatePLC` handles); only `last_checked` is written back. -/
theorem c4_counterexample :
    (connectRoute sampleDB "p1" GatewayOutcome.netErr 99).2
      = ConnectResp.serverErr "Failed to connect PLC"
    ∧ (connectRoute sampleDB "p1" GatewayOutcome.netErr 99).1.plcs.map PlcRow.plc_status
        = ["disconnected"]
    ∧ (connectRoute sampleDB "p1" GatewayOutcome.netErr 99).1.plcs.map PlcRow.last_checked
        = [99] := by
  decide

/-- C4 (amended): for an existing PLC with truthy `plc_no` and `opcua_url`,
a non-success gateway response still yields a 200 with the updated PLC and
a write-back that changes only `last_checked` (the `status`/`is_connected`
fields of the payload are ignored by `SqlStorage.updatePLC`); a network
error or timeout yields the same best-effort `last_checked` write-back but
a 500 response. -/
theorem c4_failure_paths (db : DB) (id : String) (plc : PlcRow) (now : Int)
    (hfind : db.plcs.find? (fun p => p.id = id) = some plc)
    (hno : jsFalsyInt plc.plc_no = false) (hurl : plc.opcua_url ≠ "") :
    (connectRoute db id .httpErr now).2 = .okJson { plc with last_checked := now }
    ∧ (connectRoute db id .httpErr now).1.plcs.find? (fun p => p.id = id)
        = some { plc with last_checked := now }
    ∧ (connectRoute db id .netErr now).2 = .serverErr "Failed to connect PLC"
    ∧ (connectRoute db id .netErr now).1.plcs.find? (fun p => p.id = id)
        = some { plc with last_checked := now } := by
  have hcond : (jsFalsyInt plc.plc_no || decide (plc.opcua_url = "")) = false := by
    rw [hno]; simp [hurl]
  have hmap : ∀ u : PlcUpdates,
      (db.plcs.map (fun p => if p.id = id then applyUpdates p u else p)).find?
        (fun p => p.id = id) = some (applyUpdates plc u) := by
    intro u
    rw [find?_map_update db.plcs id (fun p => applyUpdates p u) (fun _ => rfl), hfind,
      Option.map_some']
  have hupd : ∀ u : PlcUpdates, sqlUpdatePLC db id u =
      ({ db with plcs := db.plcs.map (fun p => if p.id = id then applyUpdates p u else p) },
       some (applyUpdates plc u)) := fun u => sqlUpdatePLC_found db id u plc hfind
  refine ⟨?_, ?_, ?_, ?_⟩
  · simp only [connectRoute, hfind, hcond, Bool.false_eq_true, if_false, hupd,
      applyUpdates_route_writeback]
  · simp only [connectRoute, hfind, hcond, Bool.false_eq_true, if_false, hupd]
    rw [hmap, applyUpdates_route_writeback]
  · simp only [connectRoute, hfind, hcond, Bool.false_eq_true, if_false, hupd]
  · simp only [connectRoute, hfind, hcond, Bool.false_eq_true, if_false, hupd]
    rw [hmap, applyUpdates_route_writeback]

/-- C4 witness: the amended theorem applied to the stored sample PLC. -/
theorem c4_witness :
    sampleDB.plcs.find? (fun p => p.id = "p1") = some sampleRow
    ∧ jsFalsyInt sampleRow.plc_no = false
    ∧ sampleRow.opcua_url ≠ ""
    ∧ (connectRoute sampleDB "p1" GatewayOutcome.httpErr 42).2
        = ConnectResp.okJson { sampleRow with last_checked := 42 } :=
  ⟨by rfl, by rfl, by decide,
   (c4_failure_paths sampleDB "p1" sampleRow 42 (by rfl) (by rfl) (by decide)).1⟩

/-! ## Claim C5 -/

/-- C5: `deletePLC` removes the PLC row and every variable row whose stored
PLC number equals the deleted PLC's (non-null) number — regardless of which
PLC the rows were created for — and returns true; an unknown id returns
false and changes nothing. -/
theorem c5_delete (db : DB) (id : String) :
    (db.plcs.find? (fun p => p.id = id) = none → sqlDeletePLC db id = (db, false))
    ∧ ∀ row, db.plcs.find? (fun p => p.id = id) = some row →
        sqlDeletePLC db id =
          ({ plcs := db.plcs.filter (fun p => p.id ≠ id)
             «variables» := db.«variables».filter (fun v => row.plc_no ≠ some v.plc_no)
             nextId := db.nextId }, true) := by
  constructor
  · intro h
    simp [sqlDeletePLC, h]
  · intro row h
    have hmem := List.mem_of_find?_eq_some h
    have hid : row.id = id := by simpa using List.find?_some h
    have hpos : 0 < db.plcs.countP (fun p => p.id = id) :=
      List.countP_pos_iff.mpr ⟨row, hmem, by simp [hid]⟩
    cases hn : row.plc_no with
    | some n =>
      have hfe : db.«variables».filter (fun v => v.plc_no ≠ n)
          = db.«variables».filter (fun v => row.plc_no ≠ some v.plc_no) :=
        List.filter_congr (fun v _ => by simp [hn, eq_comm])
      simp only [sqlDeletePLC, h, hn, hfe]
      simp [hpos]
    | none =>
      have hfe : db.«variables»
          = db.«variables».filter (fun v => row.plc_no ≠ some v.plc_no) := by
        rw [hn]; simp
      simp only [sqlDeletePLC, h, hn]
      simp [hpos, ← hfe]

/-- C5 witness: deleting the sample PLC removes it together with the
variable row on its PLC number 3, keeps the unrelated row on number 1, and
returns true; deleting an unknown id returns false unchanged. -/
theorem c5_witness :
    sqlDeletePLC sampleDB "p1" =
      ({ plcs := sampleDB.plcs.filter (fun p => p.id ≠ "p1")
         «variables» := sampleDB.«variables».filter
           (fun v => sampleRow.plc_no ≠ some v.plc_no)
         nextId := sampleDB.nextId }, true)
    ∧ sqlDeletePLC sampleDB "nope" = (sampleDB, false) :=
  ⟨(c5_delete sampleDB "p1").2 sampleRow (by rfl),
   (c5_delete sampleDB "nope").1 (by rfl)⟩

/-! ## Claim C6 -/

/-- C6 counterexample: a stored PLC whose `plc_no` is 0 (set, but falsy) is
joined against PLC number 1, not its own number — `getAllPLCs(true)`
returns the number-1 variable `O1` for it instead of its own number-0
variable `Z0`. -/
theorem c6_counterexample :
    ((getAllPLCs zeroNoDB true).1.map
        (fun o => o.address_mappings.map (fun a => a.node_name))) ≠ [["Z0"]]
    ∧ ((getAllPLCs zeroNoDB true).1.map
        (fun o => o.address_mappings.map (fun a => a.node_name))) = [["O1"]] := by
  decide

/-- C6 (amended): `getAllPLCs(true)` joins each PLC with the variable rows
whose stored number equals `plc_no || 1` — its `plc_no` when truthy,
defaulting to 1 when the number is unset or 0; `getAllPLCs(false)` issues
no variable query at all and populates no `address_mappings`. -/
theorem c6_getAllPLCs (db : DB) :
    (getAllPLCs db true).1.map (fun o => o.address_mappings)
      = db.plcs.map (fun p =>
          (db.«variables».filter (fun v => v.plc_no = jsOrInt p.plc_no 1)).map (fun v =>
            { node_name := v.node_name
              node_id := v.reg_address
              description := jsTruthyString v.description
              data_type := v.data_type }))
    ∧ (∀ o ∈ (getAllPLCs db false).1, o.address_mappings = [])
    ∧ (getAllPLCs db false).2 = 0 := by
  refine ⟨?_, ?_, rfl⟩
  · simp only [getAllPLCs, List.map_map]
    apply List.map_congr_left
    intro p _
    simp [joinMappings]
  · intro o ho
    simp only [getAllPLCs, List.mem_map] at ho
    obtain ⟨p, _, hp⟩ := ho
    rw [← hp]
    simp

/-- C6 witness: the amended theorem applied to the sample database. -/
theorem c6_witness :
    ((getAllPLCs sampleDB true).1.map (fun o => o.address_mappings)
      = sampleDB.plcs.map (fun p =>
          (sampleDB.«variables».filter (fun v => v.plc_no = jsOrInt p.plc_no 1)).map (fun v =>
            { node_name := v.node_name
              node_id := v.reg_address
              description := jsTruthyString v.description
              data_type := v.data_type })))
    ∧ sampleOut ∈ (getAllPLCs sampleDB false).1
    ∧ sampleOut.address_mappings = []
    ∧ (getAllPLCs sampleDB false).2 = 0 :=
  ⟨(c6_getAllPLCs sampleDB).1, by decide,
   (c6_getAllPLCs sampleDB).2.1 sampleOut (by decide),
   (c6_getAllPLCs sampleDB).2.2⟩

/-! ## Claim C7 -/

/-- C7 counterexample: the bit expansion is not idempotent on every flat
list — a channel named `A_BC_BC` expands to a row named `A_00_BC` that
still ends in `_BC` and still carries the spread `metadata.bit_mappings`,
so a second application expands it again. -/
theorem c7_counterexample :
    transformedVariables (transformedVariables [c7V]) ≠ transformedVariables [c7V] := by
  decide

/-- C7 (amended): the expansion is idempotent on flat lists whose
synthesized bit-row names no longer end in `_BC` (in particular whenever
each channel's only `_BC` occurrence is its suffix); and for distinct-id
inputs with no pre-set `parentId`, the children grouped under a bit-mapped
channel are exactly its synthesized rows in `bit_mappings` entry order, so
their bit positions reproduce the entries' order (ascending bit order
exactly when the entries are so ordered). -/
theorem c7_grouping (l : List NVar)
    (hre : ∀ v ∈ l, ∀ bits, v.bit_mappings = some bits →
      jsEndsWith v.opcua_reg_add "_BC" = true →
      ∀ kb ∈ bits, jsEndsWith (replaceFirst v.opcua_reg_add "_BC"
        ("_" ++ padStart2 (toString kb.2.bit_position))) "_BC" = false)
    (hnodup : (l.map NVar.id).Nodup)
    (hpar : ∀ w ∈ l, w.parentId = none) :
    transformedVariables (transformedVariables l) = transformedVariables l
    ∧ ∀ v ∈ l, ∀ bits, v.bit_mappings = some bits →
        jsEndsWith v.opcua_reg_add "_BC" = true →
        getChildVariables (transformedVariables l) v.id = expandBitRows v bits
        ∧ (getChildVariables (transformedVariables l) v.id).map NVar.bitPosition
            = bits.map (fun kb => kb.2.bit_position) := by
  refine ⟨transform_idem l hre, ?_⟩
  intro v hv bits hbits hbc
  have hch := getChildVariables_transform l v bits hnodup hpar hv hbits hbc
  exact ⟨hch, by rw [hch, expandBitRows_bitPositions]⟩

/-- C7 witness: the amended theorem applied to a channel with two bits and
a plain variable. -/
theorem c7_witness :
    transformedVariables (transformedVariables [c7Chan, c7Plain])
      = transformedVariables [c7Chan, c7Plain]
    ∧ getChildVariables (transformedVariables [c7Chan, c7Plain]) "c1"
        = expandBitRows c7Chan
            [("0", { address := "M10.0", description := some "Start", bit_position := 0 }),
             ("1", { address := "M10.1", description := none, bit_position := 1 })]
    ∧ (getChildVariables (transformedVariables [c7Chan, c7Plain]) "c1").map NVar.bitPosition
        = [0, 1] := by
  have hre : ∀ v ∈ [c7Chan, c7Plain], ∀ bits, v.bit_mappings = some bits →
      jsEndsWith v.opcua_reg_add "_BC" = true →
      ∀ kb ∈ bits, jsEndsWith (replaceFirst v.opcua_reg_add "_BC"
        ("_" ++ padStart2 (toString kb.2.bit_position))) "_BC" = false := by
    intro v hv bits hbits _ kb hkb
    rcases List.mem_cons.mp hv with rfl | hv'
    · have hb : [("0", ({ address := "M10.0", description := some "Start", bit_position := 0 } : BitEntry)),
                 ("1", { address := "M10.1", description := none, bit_position := 1 })] = bits :=
        Option.some.inj hbits
      rw [← hb] at hkb
      rcases List.mem_cons.mp hkb with rfl | hkb'
      · decide
      · rcases List.mem_cons.mp hkb' with rfl | h0
        · decide
        · exact absurd h0 (List.not_mem_nil kb)
    · rcases List.mem_cons.mp hv' with rfl | h0
      · simp [c7Plain] at hbits
      · exact absurd h0 (List.not_mem_nil v)
  have h := c7_grouping [c7Chan, c7Plain] hre (by decide) (by decide)
  have h2 := h.2 c7Chan (by decide) _ rfl (by decide)
  exact ⟨h.1, h2.1, h2.2.trans (by decide)⟩

/-! ## Claim C8 -/

/-- C8: `updatePLC` is a frame-respecting partial update — the stored row
changes only in the handled fields that are present in the update object,
`id` and `created_at` are never touched, `last_checked` is exactly the
caller-supplied value (kept unchanged when not supplied, never
auto-generated), and every other stored PLC row is untouched. -/
theorem c8_partial_update (db : DB) (id : String) (u : PlcUpdates) (old : PlcRow)
    (h : db.plcs.find? (fun p => p.id = id) = some old) :
    (sqlUpdatePLC db id u).2 = some (applyUpdates old u)
    ∧ (sqlUpdatePLC db id u).1.plcs.find? (fun p => p.id = id)
        = some (applyUpdates old u)
    ∧ (applyUpdates old u).id = old.id
    ∧ (applyUpdates old u).created_at = old.created_at
    ∧ (u.plc_name = none → (applyUpdates old u).plc_name = old.plc_name)
    ∧ (u.plc_no = none → (applyUpdates old u).plc_no = old.plc_no)
    ∧ (u.plc_ip = none → (applyUpdates old u).plc_ip = old.plc_ip)
    ∧ (u.opcua_url = none → (applyUpdates old u).opcua_url = old.opcua_url)
    ∧ (u.plc_status = none → (applyUpdates old u).plc_status = old.plc_status)
    ∧ (u.opcua_status = none → (applyUpdates old u).opcua_status = old.opcua_status)
    ∧ (u.last_checked = none → (applyUpdates old u).last_checked = old.last_checked)
    ∧ (applyUpdates old u).last_checked = u.last_checked.getD old.last_checked
    ∧ ∀ p ∈ db.plcs, p.id ≠ id → p ∈ (sqlUpdatePLC db id u).1.plcs := by
  have hupd := sqlUpdatePLC_found db id u old h
  have hmap : (sqlUpdatePLC db id u).1.plcs.find? (fun p => p.id = id)
      = some (applyUpdates old u) := by
    rw [hupd]
    simp only []
    rw [find?_map_update db.plcs id (fun p => applyUpdates p u) (fun _ => rfl), h,
      Option.map_some']
  refine ⟨by rw [hupd], hmap, rfl, rfl, ?_, ?_, ?_, ?_, ?_, ?_, ?_, rfl, ?_⟩
  · intro hn; simp [applyUpdates, hn]
  · intro hn; simp [applyUpdates, hn]
  · intro hn; simp [applyUpdates, hn]
  · intro hn; simp [applyUpdates, hn]
  · intro hn; simp [applyUpdates, hn]
  · intro hn; simp [applyUpdates, hn]
  · intro hn; simp [applyUpdates, hn]
  · intro p hp hne
    rw [hupd]
    simp only []
    exact List.mem_map.mpr ⟨p, hp, by simp [hne]⟩

/-- C8 witness: renaming the sample PLC with a caller-supplied timestamp. -/
theorem c8_witness :
    sampleDB.plcs.find? (fun p => p.id = "p1") = some sampleRow
    ∧ (sqlUpdatePLC sampleDB "p1" c8U).2 = some (applyUpdates sampleRow c8U)
    ∧ (applyUpdates sampleRow c8U).created_at = sampleRow.created_at
    ∧ (applyUpdates sampleRow c8U).last_checked
        = (c8U.last_checked).getD sampleRow.last_checked :=
  ⟨by rfl,
   (c8_partial_update sampleDB "p1" c8U sampleRow (by rfl)).1,
   (c8_partial_update sampleDB "p1" c8U sampleRow (by rfl)).2.2.2.1,
   (c8_partial_update sampleDB "p1" c8U sampleRow (by rfl)).2.2.2.2.2.2.2.2.2.2.2.1⟩

/-! ## Claim C9 -/

/-- C9: the JSON upload endpoint persists only the first PLC block of the
document — the outcome is identical with every later block dropped, the
resulting database is exactly the one `createPLCFromRaw` produces for block
0, and on success the response carries that block's PLC. -/
theorem c9_upload_first_block (db : DB) (now : Int) (b0 : RawPLC) (rest : List RawPLC) :
    uploadJson db now (b0 :: rest) = uploadJson db now [b0]
    ∧ (uploadJson db now (b0 :: rest)).1 = dbAfter db (createPLCFromRaw db now b0)
    ∧ ∀ db' plc, createPLCFromRaw db now b0 = .ok (db', plc) →
        uploadJson db now (b0 :: rest) = (db', .success plc) := by
  refine ⟨rfl, ?_, ?_⟩
  · cases h : createPLCFromRaw db now b0 with
    | ok v =>
      obtain ⟨db', plc⟩ := v
      simp [uploadJson, dbAfter, h]
    | error m => simp [uploadJson, dbAfter, h]
  · intro db' plc h
    simp [uploadJson, h]

/-- C9 witness: a two-block document persists only the first block. -/
theorem c9_witness :
    uploadJson emptyDB 0 [c1Raw, c2RawEmptyBits] = uploadJson emptyDB 0 [c1Raw]
    ∧ uploadJson emptyDB 0 [c1Raw, c2RawEmptyBits]
        = (c1DBres, UploadResp.success c1PlcRes) :=
  ⟨(c9_upload_first_block emptyDB 0 c1Raw [c2RawEmptyBits]).1,
   (c9_upload_first_block emptyDB 0 c1Raw [c2RawEmptyBits]).2.2 c1DBres c1PlcRes (by rfl)⟩

/-! ## Claim C10 -/

/-- C10: the bulk status endpoint keys the stored PLCs into a map by their
number, so of two stored PLCs sharing a `plc_no` at most one contributes a
response entry and at most one receives the status write-back. -/
theorem c10_bulk_status_dedup (db : DB) (py : List PyStatus) (now : Int) (nowIso : String)
    (p1 p2 : PLCOut)
    (hnd : (((getAllPLCs db false).1).map PLCOut.id).Nodup)
    (h1 : p1 ∈ (getAllPLCs db false).1) (h2 : p2 ∈ (getAllPLCs db false).1)
    (hid : p1.id ≠ p2.id) (hk : p1.plc_no = p2.plc_no) :
    ¬(p1.id ∈ (allStatus db py now nowIso).results.map StatusEntry.plc_id
      ∧ p2.id ∈ (allStatus db py now nowIso).results.map StatusEntry.plc_id)
    ∧ ¬(p1.id ∈ (allStatus db py now nowIso).touched
      ∧ p2.id ∈ (allStatus db py now nowIso).touched) := by
  have key : (∃ kv ∈ buildPlcMap (getAllPLCs db false).1, kv.2.id = p1.id) →
      (∃ kv ∈ buildPlcMap (getAllPLCs db false).1, kv.2.id = p2.id) → False := by
    rintro ⟨kv1, hkv1, hi1⟩ ⟨kv2, hkv2, hi2⟩
    obtain ⟨hv1mem, hk1⟩ := mem_buildPlcMap _ kv1 hkv1
    obtain ⟨hv2mem, hk2⟩ := mem_buildPlcMap _ kv2 hkv2
    have hq1 : kv1.2 = p1 := List.inj_on_of_nodup_map hnd hv1mem h1 hi1
    have hq2 : kv2.2 = p2 := List.inj_on_of_nodup_map hnd hv2mem h2 hi2
    have hkeq : kv1.1 = kv2.1 := by rw [hk1, hk2, hq1, hq2, hk]
    have heq : kv1 = kv2 :=
      List.inj_on_of_nodup_map (buildPlcMap_keys_nodup _) hkv1 hkv2 hkeq
    apply hid
    rw [← hq1, ← hq2, heq]
  constructor
  · rintro ⟨ha, hb⟩
    exact key (allStatus_trace db py now nowIso p1.id (Or.inl ha))
      (allStatus_trace db py now nowIso p2.id (Or.inl hb))
  · rintro ⟨ha, hb⟩
    exact key (allStatus_trace db py now nowIso p1.id (Or.inr ha))
      (allStatus_trace db py now nowIso p2.id (Or.inr hb))

/-- C10 witness: two stored PLCs sharing number 3 — the response and the
write-backs never name both. -/
theorem c10_witness :
    ((((getAllPLCs dupNoDB false).1).map PLCOut.id).Nodup)
    ∧ sampleOut ∈ (getAllPLCs dupNoDB false).1
    ∧ sampleOut2 ∈ (getAllPLCs dupNoDB false).1
    ∧ ¬(sampleOut.id ∈ (allStatus dupNoDB [samplePy] 50 "iso").results.map StatusEntry.plc_id
        ∧ sampleOut2.id ∈ (allStatus dupNoDB [samplePy] 50 "iso").results.map StatusEntry.plc_id) :=
  ⟨by decide, by decide, by decide,
   (c10_bulk_status_dedup dupNoDB [samplePy] 50 "iso" sampleOut sampleOut2
     (by decide) (by decide) (by decide) (by decide) (by decide)).1⟩
